import Mathlib

set_option maxHeartbeats 4000000
set_option maxRecDepth 2000

/-
Verification of the Agentic Tool-Execution & Context-Governance Engine
(backend/app/agentic_tools.py and backend/app/mode_manager.py).

The Python code is shallowly embedded: strings are Lean Strings, the
filesystem is an explicit association map from resolved path strings to
file contents, and every handler is a pure function from its arguments
and a filesystem state to a ToolResult together with the successor
filesystem state.  Python ints are modelled as Int/Nat; Python regular
expressions appearing in the source are all literal-substring patterns
and are modelled as substring tests.
-/

namespace DevLLM

/-- Prefix test on character lists (Python str.startswith over explicit lists). -/
def prefB : List Char → List Char → Bool
  | [], _ => true
  | _ :: _, [] => false
  | a :: as, b :: bs => a == b && prefB as bs

/-- Substring occurrence test on character lists (Python needle in hay). -/
def subB (n : List Char) : List Char → Bool
  | [] => n.isEmpty
  | c :: t => prefB n (c :: t) || subB n t

/-- Python needle in hay on strings. -/
def strContains (hay needle : String) : Bool := subB needle.toList hay.toList

/-- Python ch in s for a single character. -/
def strHasChar (s : String) (c : Char) : Bool := s.toList.contains c

/-- The literal double-encoded byte patterns listed in detect_mojibake
(agentic_tools.py lines 363-373): the Latin-1 misreadings of the UTF-8
encodings of the Hungarian vowels. -/
def mojibakePatterns : List String :=
  ["Ã¡", "Ã©", "Ã­", "Ã³", "Ã¶",
   "Ãº", "Ã¼", "Å\u0091", "Å±"]

/-- The second-character set of the C3-heuristic in detect_mojibake
(agentic_tools.py line 380). -/
def mojibakeSeconds : List Char :=
  ['¡', '©', '­', '³', '¶', 'º', '¼']

/-- Embedding of detect_mojibake (agentic_tools.py lines 353-383). -/
def detect_mojibake (text : String) : Bool :=
  if text.isEmpty then false
  else if mojibakePatterns.any (fun p => strContains text p) then true
  else if strHasChar text 'Ã' && mojibakeSeconds.any (strHasChar text) then true
  else false

/-- Latin-1 encoding of a character list: each code point at most 0xFF becomes
one byte, anything larger raises (Python str.encode with latin-1). -/
def encodeLatin1 : List Char → Option (List Nat)
  | [] => some []
  | c :: t => if c.toNat ≤ 255 then (encodeLatin1 t).map (c.toNat :: ·) else none

/-- Continuation-byte test for strict UTF-8 decoding. -/
def contB (b : Nat) : Bool := 0x80 ≤ b && b ≤ 0xBF

/-- Strict UTF-8 decoding of a byte list (Python bytes.decode with utf-8):
rejects stray continuation bytes, overlong forms, surrogates and
code points above U+10FFFF. -/
def decodeUtf8 : List Nat → Option (List Char)
  | [] => some []
  | b :: t =>
    if b ≤ 0x7F then (decodeUtf8 t).map (Char.ofNat b :: ·)
    else if b < 0xC2 then none
    else if b ≤ 0xDF then
      match t with
      | c1 :: t2 =>
        if contB c1 then
          (decodeUtf8 t2).map (Char.ofNat ((b - 0xC0) * 64 + (c1 - 0x80)) :: ·)
        else none
      | [] => none
    else if b ≤ 0xEF then
      match t with
      | c1 :: c2 :: t2 =>
        let lo1 := if b == 0xE0 then 0xA0 else 0x80
        let hi1 := if b == 0xED then 0x9F else 0xBF
        if lo1 ≤ c1 && c1 ≤ hi1 && contB c2 then
          (decodeUtf8 t2).map
            (Char.ofNat ((b - 0xE0) * 4096 + (c1 - 0x80) * 64 + (c2 - 0x80)) :: ·)
        else none
      | _ => none
    else if b ≤ 0xF4 then
      match t with
      | c1 :: c2 :: c3 :: t2 =>
        let lo1 := if b == 0xF0 then 0x90 else 0x80
        let hi1 := if b == 0xF4 then 0x8F else 0xBF
        if lo1 ≤ c1 && c1 ≤ hi1 && contB c2 && contB c3 then
          (decodeUtf8 t2).map
            (Char.ofNat ((b - 0xF0) * 262144 + (c1 - 0x80) * 4096 +
              (c2 - 0x80) * 64 + (c3 - 0x80)) :: ·)
        else none
      | _ => none
    else none

/-- Embedding of fix_mojibake (agentic_tools.py lines 386-400): reverse
transcode (encode Latin-1, decode UTF-8); on any failure the original
text is returned unchanged. -/
def fix_mojibake (text : String) : String :=
  if text.isEmpty then text
  else
    match encodeLatin1 text.toList with
    | none => text
    | some bytes =>
      match decodeUtf8 bytes with
      | none => text
      | some cs => String.mk cs

/-- Embedding of the safe flag of validate_encoding_safety (agentic_tools.py
lines 403-447).  The function also accumulates warnings (Hungarian-character
loss, non-ASCII loss, string-literal heuristics), but warnings are only
printed and never influence control flow, so only the safe flag - false
exactly when the modified text introduces mojibake the original did not
have - is modelled. -/
def validate_encoding_safety (original modified : String) : Bool :=
  !(!detect_mojibake original && detect_mojibake modified)

/-- Python str.startswith modelled through character lists. -/
def strStartsWith (s pre : String) : Bool := prefB pre.toList s.toList

/-- Detailed file-modification record (agentic_tools.py lines 315-323). -/
structure FileModification where
  path : String
  action : String
  lines_added : Nat := 0
  lines_deleted : Nat := 0
  before_content : Option String := none
  after_content : Option String := none
  deriving Repr, DecidableEq

/-- Result of a tool execution (agentic_tools.py lines 325-335).
permission_details is a dict in the source; it is modelled as a list of
stringified key-value entries. -/
structure ToolResult where
  success : Bool
  result : String
  error : Option String := none
  modified_files : List String := []
  file_modifications : List FileModification := []
  permission_required : Bool := false
  permission_type : Option String := none
  permission_details : List (String × String) := []
  deriving Repr, DecidableEq

/-- Split a character list at every occurrence of a separator character
(Python str.split with a one-character separator; every split in the
source uses a one-character separator). -/
def splitCharList (sep : Char) : List Char → List (List Char)
  | [] => [[]]
  | c :: t =>
    let r := splitCharList sep t
    if c == sep then [] :: r
    else
      match r with
      | h :: rt => (c :: h) :: rt
      | [] => [[c]]

/-- Python str.split with a one-character separator. -/
def strSplitChar (s : String) (sep : Char) : List String :=
  (splitCharList sep s.toList).map String.mk

/-- Python sep.join(parts). -/
def joinSep (sep : String) : List String → String
  | [] => ""
  | [x] => x
  | x :: t => x ++ sep ++ joinSep sep t

/-- A resolved absolute path, as the list of its segments below the
filesystem root. -/
abbrev PathSegs := List String

/-- String form of a resolved path (str of a pathlib Path). -/
def pathStr (segs : PathSegs) : String := "/" ++ joinSep "/" segs

/-- Update an association list at a key, replacing the first binding or
appending a fresh one. -/
def setA (k v : String) : List (String × String) → List (String × String)
  | [] => [(k, v)]
  | p :: t => if p.1 == k then (k, v) :: t else p :: setA k v t

/-- The filesystem state: file contents keyed by resolved path string,
plus the set of directories.  Symlinks and encoding layers are not
modelled (file contents are the decoded strings the handlers work with). -/
structure FS where
  files : List (String × String) := []
  dirs : List String := []
  deriving Repr, DecidableEq

def FS.readFile (fs : FS) (p : String) : Option String := fs.files.lookup p

def FS.putFile (fs : FS) (p c : String) : FS := { fs with files := setA p c fs.files }

def FS.isFile (fs : FS) (p : String) : Bool := (fs.files.lookup p).isSome

def FS.isDir (fs : FS) (p : String) : Bool := fs.dirs.contains p

def FS.pathExists (fs : FS) (p : String) : Bool := fs.isFile p || fs.isDir p

/-- The executor instance (agentic_tools.py lines 454-482): the resolved
project root and the mode flag. -/
structure ToolExecutor where
  root : PathSegs
  auto_mode : Bool

/-- BLOCKED_PATTERNS (agentic_tools.py lines 465-473).  Every regex in
the source is a literal (dots escaped), so re.search is a substring test. -/
def BLOCKED_PATTERNS : List String :=
  ["../", ".git/", "node_modules/", "__pycache__/", ".env", ".venv/", "venv/"]

/-- A relative path matches the deny-list when any blocked pattern occurs
in it as a substring. -/
def isBlockedPath (rel : String) : Bool :=
  BLOCKED_PATTERNS.any (fun p => strContains rel p)

/-- Lexical normalization of pathlib resolve: empty and dot segments are
dropped, a dot-dot segment removes the previous one (the parent of the
filesystem root is itself). -/
def resolveSegs (base : PathSegs) (segs : List String) : PathSegs :=
  segs.foldl
    (fun acc s =>
      if s = "" || s = "." then acc
      else if s = ".." then acc.dropLast
      else acc ++ [s])
    base

/-- Embedding of ToolExecutor._resolve_path (agentic_tools.py lines
484-507): empty input resolves to the project root; inputs matching the
deny-list are rejected; otherwise the input is joined to the root
(absolute inputs replace it, as with pathlib), normalized, and accepted
exactly when its string form has the string form of the project root as
prefix. -/
def ToolExecutor.resolve_path (ex : ToolExecutor) (rel : String) : Option PathSegs :=
  if rel = "" then some ex.root
  else if isBlockedPath rel then none
  else
    let segs := strSplitChar rel '/'
    let base := if strStartsWith rel "/" then ([] : PathSegs) else ex.root
    let full := resolveSegs base segs
    if strStartsWith (pathStr full) (pathStr ex.root) then some full else none

/-- Stated from the claim wording of C2: the input contains a
parent-traversal segment, i.e. one of its slash-separated components is
dot-dot. -/
def specHasParentSegment (rel : String) : Bool :=
  (strSplitChar rel '/').contains ".."

/-- Stated from the claim wording of C2: the resolved path is the project
root itself or a true path-segment descendant of it. -/
def specRootOrDescendant (root p : PathSegs) : Bool :=
  root.isPrefixOf p

/-- Python s[:n] (slicing counts code points, as Lean Chars do). -/
def strTake (s : String) (n : Nat) : String := String.mk (s.toList.take n)

/-- Python s.count(ch) for a single character. -/
def countChar (s : String) (c : Char) : Nat := s.toList.count c

/-- Python s.split(chr(10)). -/
def strLines (s : String) : List String := strSplitChar s '\n'

/-- Newline join, inverse of strLines. -/
def joinLines : List String → String := joinSep "\n"

/-- Python s.lstrip over the BOM character (agentic_tools read paths). -/
def lstripBOM (s : String) : String :=
  String.mk (s.toList.dropWhile (fun c => c == '\uFEFF'))

/-- ASCII whitespace, the characters the regex backslash-s class matches on
the texts handled here (the additional Unicode space code points Python
also matches play no role in the embedded texts). -/
def pyIsSpace (c : Char) : Bool :=
  c == ' ' || c == '\t' || c == '\n' || c == '\r' || c == '\x0b' || c == '\x0c'

/-- Fueled collapse of whitespace runs to a single space, modelling
re.sub of a whitespace-run pattern with a single space.  The fuel is the
input length, which suffices because every step consumes at least one
input character. -/
def normWsFuel : Nat → List Char → List Char
  | 0, _ => []
  | _ + 1, [] => []
  | fuel + 1, c :: t =>
    if pyIsSpace c then ' ' :: normWsFuel fuel (t.dropWhile pyIsSpace)
    else c :: normWsFuel fuel t

/-- Whitespace normalization used by the edit fallback match
(agentic_tools.py lines 1092-1093). -/
def normWs (s : String) : String := String.mk (normWsFuel s.toList.length s.toList)

/-- Fueled non-overlapping occurrence count, left to right (Python
str.count for a nonempty needle).  Fuel is input length plus one. -/
def pyCountFuel : Nat → List Char → List Char → Nat
  | 0, _, _ => 0
  | fuel + 1, n, h =>
    if prefB n h then 1 + pyCountFuel fuel n (h.drop n.length)
    else
      match h with
      | [] => 0
      | _ :: t => pyCountFuel fuel n t

/-- Python s.count(needle), including the empty-needle convention. -/
def pyCount (s needle : String) : Nat :=
  if needle.isEmpty then s.length + 1
  else pyCountFuel (s.toList.length + 1) needle.toList s.toList

/-- Fueled left-to-right replacement; when limited is true only the first
occurrence is replaced (Python str.replace with count 1). -/
def pyReplaceFuel (limited : Bool) : Nat → List Char → List Char → List Char → List Char
  | 0, _, _, _ => []
  | fuel + 1, n, r, h =>
    if prefB n h then
      if limited then r ++ h.drop n.length
      else r ++ pyReplaceFuel limited fuel n r (h.drop n.length)
    else
      match h with
      | [] => []
      | c :: t => c :: pyReplaceFuel limited fuel n r t

/-- Python s.replace(old, new), including the empty-needle convention of
interleaving the replacement around every character. -/
def pyReplaceAll (s old new : String) : String :=
  if old.isEmpty then
    String.mk (new.toList ++ s.toList.foldr (fun c acc => c :: (new.toList ++ acc)) [])
  else String.mk (pyReplaceFuel false (s.toList.length + 1) old.toList new.toList s.toList)

/-- Python s.replace(old, new, 1). -/
def pyReplaceFirst (s old new : String) : String :=
  if old.isEmpty then new ++ s
  else String.mk (pyReplaceFuel true (s.toList.length + 1) old.toList new.toList s.toList)

/-- Length of the common prefix of two line lists. -/
def commonRun : List String → List String → Nat
  | a :: as, b :: bs => if a == b then commonRun as bs + 1 else 0
  | _, _ => 0

/-- The longest matching block of two line lists, as difflib
find_longest_match documents it: the longest, breaking ties by earliest
start in the first sequence and then earliest start in the second.  The
autojunk heuristic, which only activates on sequences of 200 lines or
more, is not modelled. -/
def bestMatch (a b : List String) : Nat × Nat × Nat :=
  (List.range a.length).foldl
    (fun best i =>
      (List.range b.length).foldl
        (fun best j =>
          let k := commonRun (a.drop i) (b.drop j)
          if k > best.2.2 then (i, j, k) else best)
        best)
    (0, 0, 0)

/-- Fueled recursive decomposition into matching blocks, as difflib
get_matching_blocks (without the terminating zero-length sentinel). -/
def matchingBlocksFuel : Nat → List String → List String → Nat → Nat → List (Nat × Nat × Nat)
  | 0, _, _, _, _ => []
  | fuel + 1, a, b, aoff, boff =>
    let m := bestMatch a b
    let i := m.1
    let j := m.2.1
    let k := m.2.2
    if k == 0 then []
    else
      matchingBlocksFuel fuel (a.take i) (b.take j) aoff boff
        ++ [(aoff + i, boff + j, k)]
        ++ matchingBlocksFuel fuel (a.drop (i + k)) (b.drop (j + k)) (aoff + i + k) (boff + j + k)

/-- Matching blocks of two line lists with absolute offsets. -/
def matchingBlocks (a b : List String) : List (Nat × Nat × Nat) :=
  matchingBlocksFuel (a.length + b.length + 1) a b 0 0

/-- Membership of a first-sequence index in some matching block. -/
def inBlockA (blocks : List (Nat × Nat × Nat)) (idx : Nat) : Bool :=
  blocks.any fun t => t.1 ≤ idx && idx < t.1 + t.2.2

/-- Membership of a second-sequence index in some matching block. -/
def inBlockB (blocks : List (Nat × Nat × Nat)) (idx : Nat) : Bool :=
  blocks.any fun t => t.2.1 ≤ idx && idx < t.2.1 + t.2.2

/-- The (lines_added, lines_deleted) pair the handlers derive from
difflib.unified_diff: every line of either sequence outside the matching
blocks is emitted exactly once with a plus or minus prefix, and the
handlers count prefixed lines while excluding those beginning with three
plus or minus signs, which drops content lines that themselves begin
with two plus or minus signs (and the two file-header lines, as the
source intends). -/
def diffCounts (a b : List String) : Nat × Nat :=
  let blocks := matchingBlocks a b
  let added := (b.enum.filter fun p => !(inBlockB blocks p.1) && !(strStartsWith p.2 "++")).length
  let deleted := (a.enum.filter fun p => !(inBlockA blocks p.1) && !(strStartsWith p.2 "--")).length
  (added, deleted)

/-- A failed ToolResult carrying only an error message, the shape every
error return in the source uses. -/
def errRes (msg : String) : ToolResult :=
  { success := false, result := "", error := some msg }

/-- Directory creation with parents: all strict prefixes of the path are
added to the directory set (mkdir with parents and exist_ok). -/
def addParents (segs : PathSegs) (fs : FS) : FS :=
  { fs with dirs := ((List.range segs.length).map fun n => pathStr (segs.take n)) ++ fs.dirs }

/-- Directory creation of the path itself together with its parents. -/
def addDirAll (segs : PathSegs) (fs : FS) : FS :=
  { fs with dirs := ((List.range (segs.length + 1)).map fun n => pathStr (segs.take n)) ++ fs.dirs }

/-- The project root and every recorded directory count as directories
(the constructor requires the project root to exist). -/
def ToolExecutor.dirOk (ex : ToolExecutor) (fs : FS) (p : PathSegs) : Bool :=
  p == ex.root || fs.isDir (pathStr p)

/-- Embedding of ToolExecutor._execute_terminal (agentic_tools.py lines
745-773): the gate call.  It clamps the timeout, resolves the working
directory (falling back to the project root when resolution fails or the
target is not a directory) and always returns a permission-required
result; no process is spawned and the filesystem is untouched - the
spawning lives only in execute_terminal_approved, a separate entry point
not reachable from execute. -/
def ToolExecutor.execute_terminal (ex : ToolExecutor) (command description : String)
    (working_directory : Option String) (timeout : Int) (fs : FS) : ToolResult × FS :=
  let t := min (max timeout 5) 300
  let work_dir :=
    match working_directory with
    | some wd =>
      match ex.resolve_path wd with
      | some w => if ex.dirOk fs w then w else ex.root
      | none => ex.root
    | none => ex.root
  ({ success := false
     result := ""
     permission_required := true
     permission_type := some "terminal"
     permission_details :=
       [("command", command), ("description", description),
        ("working_directory", pathStr work_dir), ("timeout", toString t)] }, fs)

/-- Embedding of ToolExecutor._write_file (agentic_tools.py lines
852-969).  The truncation guard compares new_len with original_len times
one half exactly (the float product is exact for these sizes), so it is
stated as 2 * new_len < original_len.  The under-80-percent warning only
prints and is omitted.  A write onto a directory path raises in Python
and becomes the caught error result. -/
def ToolExecutor.write_file (ex : ToolExecutor) (path content : String) (fs : FS) :
    ToolResult × FS :=
  match ex.resolve_path path with
  | none => (errRes ("Invalid or blocked path: " ++ path), fs)
  | some resolved =>
    if !ex.auto_mode then
      ({ success := false
         result := ""
         permission_required := true
         permission_type := some "write"
         permission_details :=
           [("path", path), ("full_path", pathStr resolved),
            ("content_length", toString content.length),
            ("content_preview",
              strTake content 500 ++ (if content.length > 500 then "..." else "")),
            ("description",
              "Fájl írás: " ++ path ++ " (" ++ toString content.length ++ " karakter)")] },
       fs)
    else
      let content1 := if detect_mojibake content then fix_mojibake content else content
      let rp := pathStr resolved
      let commit : ToolResult × FS :=
        if fs.isDir rp then (errRes "Error writing file: target is a directory", fs)
        else
          let original_for_diff := (fs.readFile rp).getD ""
          let fs2 := (addParents resolved fs).putFile rp content1
          let is_new := original_for_diff == ""
          let counts :=
            if is_new then ((strLines content1).length, 0)
            else diffCounts (strLines original_for_diff) (strLines content1)
          ({ success := true
             result := "Successfully wrote " ++ toString content1.length
               ++ " characters to " ++ path ++ " (+" ++ toString counts.1 ++ "/-"
               ++ toString counts.2 ++ " lines)"
             modified_files := [path]
             file_modifications :=
               [{ path := path
                  action := if is_new then "create" else "write"
                  lines_added := counts.1
                  lines_deleted := counts.2
                  before_content := if is_new then none else some original_for_diff
                  after_content := some content1 }] }, fs2)
      match fs.readFile rp with
      | some original =>
        if 2 * content1.length < original.length && original.length > 1000 then
          (errRes ("SAFETY BLOCK: write_file would truncate the file from "
            ++ toString original.length ++ " to " ++ toString content1.length
            ++ " chars (" ++ toString (100 * content1.length / original.length)
            ++ "%)! Use apply_edit() for partial changes instead of write_file()!"), fs)
        else if !(validate_encoding_safety original content1) then
          (errRes
            "ENCODING PROTECTION: Modified code introduces mojibake (double-encoded) characters!",
           fs)
        else commit
      | none => commit

/-- The error text of the old-equals-new guard (agentic_tools.py lines
988-996, truncated to its head; the exact wording is not load-bearing). -/
def noopGuardMsg (path : String) : String :=
  "⛔ HIBA: Az old_text és new_text UGYANAZ! Ez nem valódi módosítás! ("
    ++ path ++ ")"

/-- The needle-resolution step of the AUTO branch of _apply_edit
(agentic_tools.py lines 1089-1113): exact match, then the
whitespace-normalized fallback - which deliberately mirrors the source
in keeping the original needle and falling through - then the
de-mojibaked needle, otherwise the not-found diagnostics. -/
def resolveNeedle (path content old_text : String) : Except String String :=
  if strContains content old_text then Except.ok old_text
  else if strContains (normWs content) (normWs old_text) then Except.ok old_text
  else if detect_mojibake old_text then
    let fixed := fix_mojibake old_text
    if strContains content fixed then Except.ok fixed
    else Except.error ("Could not find the text to replace in " ++ path
      ++ ". The old_text contains encoding issues. Please read_file first to get the exact current content.")
  else Except.error ("Could not find the text to replace in " ++ path
    ++ ". Please read_file first to get the current content.")

/-- Python str.strip over whitespace. -/
def pyStrip (s : String) : String :=
  String.mk (((s.toList.dropWhile pyIsSpace).reverse.dropWhile pyIsSpace).reverse)

/-- The similar-line diagnostics of the not-found branches: lines of the
content containing the first fifteen characters of the needle. -/
def similarLines (old_text content : String) : List String :=
  (strLines content).filter fun l => strContains l (strTake old_text 15)

/-- Embedding of ToolExecutor._apply_edit (agentic_tools.py lines
971-1181).  The md5 file hash of the manual gate is modelled as the file
content itself, a collision-free abstraction with the same equality
behaviour.  The read on a directory path raises in Python and becomes
the caught error result. -/
def ToolExecutor.apply_edit (ex : ToolExecutor) (path old_text new_text : String)
    (fs : FS) : ToolResult × FS :=
  match ex.resolve_path path with
  | none => (errRes ("Invalid or blocked path: " ++ path), fs)
  | some resolved =>
    let rp := pathStr resolved
    if !(fs.pathExists rp) then (errRes ("File not found: " ++ path), fs)
    else if old_text == new_text then (errRes (noopGuardMsg path), fs)
    else if !ex.auto_mode then
      match fs.readFile rp with
      | none => (errRes ("Nem sikerült olvasni a fájlt: " ++ path), fs)
      | some raw =>
        let current := lstripBOM raw
        if !(strContains current old_text) then
          if strContains current new_text then
            ({ success := true
               result := "✅ A változtatás MÁR ALKALMAZVA van a fájlban: " ++ path
                 ++ ". Nincs szükség további módosításra."
               modified_files := []
               file_modifications := [] }, fs)
          else
            let sims := similarLines old_text current
            (errRes ("A keresett szöveg nem található a fájlban: " ++ path ++ "\n"
              ++ "Keresett: '" ++ strTake old_text 100
              ++ (if old_text.length > 100 then "..." else "") ++ "'\n"
              ++ (if sims.isEmpty then "" else "Hasonló sorok:\n"
                    ++ String.join ((sims.take 3).map fun l =>
                        "  - " ++ strTake (pyStrip l) 80 ++ "\n"))
              ++ "\nKérlek, használj read_file()-t a fájl aktuális tartalmának lekéréséhez!"),
             fs)
        else
          ({ success := false
             result := ""
             permission_required := true
             permission_type := some "edit"
             permission_details :=
               [("path", path), ("full_path", rp),
                ("old_text", old_text), ("new_text", new_text),
                ("old_preview",
                  strTake old_text 200 ++ (if old_text.length > 200 then "..." else "")),
                ("new_preview",
                  strTake new_text 200 ++ (if new_text.length > 200 then "..." else "")),
                ("description", "Fájl szerkesztés: " ++ path),
                ("file_hash", current)] }, fs)
    else
      match fs.readFile rp with
      | none => (errRes ("Error applying edit: cannot read " ++ path), fs)
      | some raw =>
        let content := lstripBOM raw
        let new1 := if detect_mojibake new_text then fix_mojibake new_text else new_text
        if !(validate_encoding_safety old_text new1) then
          (errRes "ENCODING PROTECTION: Modified code introduces mojibake (double-encoded) characters!. Please use correct UTF-8 characters.",
           fs)
        else
          match resolveNeedle path content old_text with
          | .error msg => (errRes msg, fs)
          | .ok old1 =>
            let occurrences := pyCount content old1
            let new_content :=
              if occurrences > 1 then pyReplaceFirst content old1 new1
              else pyReplaceAll content old1 new1
            if detect_mojibake new_content && !(detect_mojibake content) then
              (errRes "ENCODING PROTECTION: Edit would introduce mojibake characters. Operation blocked.",
               fs)
            else
              let fs2 := fs.putFile rp new_content
              let d := diffCounts (strLines content) (strLines new_content)
              let counts :=
                if d.1 == 0 && d.2 == 0 && !(old1 == new1) then
                  (countChar old1 '\n' + 1, countChar old1 '\n' + 1)
                else d
              ({ success := true
                 result := "Successfully applied edit to " ++ path ++ " ("
                   ++ toString occurrences ++ " occurrence(s), +" ++ toString counts.1
                   ++ "/-" ++ toString counts.2 ++ " lines)"
                 modified_files := [path]
                 file_modifications :=
                   [{ path := path
                      action := "edit"
                      lines_added := counts.1
                      lines_deleted := counts.2
                      before_content := some content
                      after_content := some new_content }] }, fs2)

/-- Embedding of ToolExecutor.apply_edit_approved (agentic_tools.py lines
1510-1628), the manual-mode approval entry point.  The md5 hash is
modelled as the content itself, so the staleness test compares contents.
Note this path has no mojibake guards and no zero-zero diff special
case, exactly as in the source. -/
def ToolExecutor.apply_edit_approved (ex : ToolExecutor)
    (path old_text new_text : String) (expected_file_hash : Option String)
    (fs : FS) : ToolResult × FS :=
  match ex.resolve_path path with
  | none => (errRes ("File not found: " ++ path), fs)
  | some resolved =>
    let rp := pathStr resolved
    if !(fs.pathExists rp) then (errRes ("File not found: " ++ path), fs)
    else if old_text == new_text then
      (errRes "⛔ HIBA: Az old_text és new_text UGYANAZ! Ez nem valódi módosítás!", fs)
    else
      match fs.readFile rp with
      | none => (errRes ("Error applying edit: cannot read " ++ path), fs)
      | some raw =>
        let content := lstripBOM raw
        let hashEarly : Option ToolResult :=
          match expected_file_hash with
          | some h =>
            if !(content == h) then
              if strContains content new_text && !(strContains content old_text) then
                some { success := true
                       result := "✅ A fájl megváltozott, de a kért módosítás MÁR ALKALMAZVA van: "
                         ++ path
                       modified_files := []
                       file_modifications := [] }
              else if strContains content old_text then none
              else
                some (errRes ("⚠️ A fájl megváltozott, mióta az LLM olvasta!\nKérlek, futtass egy új validálást/elemzést, hogy a legfrissebb verzióval dolgozz.\nFájl: "
                  ++ path))
            else none
          | none => none
        match hashEarly with
        | some r => (r, fs)
        | none =>
          if !(strContains content old_text) then
            if strContains content new_text then
              ({ success := true
                 result := "✅ A módosítás már alkalmazva van a fájlban: " ++ path
                   ++ ". A kért változtatás (" ++ strTake old_text 50 ++ "... → "
                   ++ strTake new_text 50 ++ "...) már megtörtént!"
                 modified_files := []
                 file_modifications := [] }, fs)
            else
              let sims := similarLines old_text content
              (errRes ("A keresett szöveg nem található: " ++ path ++ "\n"
                ++ "Keresett: '" ++ strTake old_text 100
                ++ (if old_text.length > 100 then "..." else "") ++ "'\n"
                ++ (if sims.isEmpty then "" else "Hasonló sorok a fájlban:\n"
                      ++ String.join ((sims.take 3).map fun l =>
                          "  - " ++ strTake (pyStrip l) 80 ++ "\n"))
                ++ "\nA fájl valószínűleg már módosult vagy a változtatás már alkalmazva lett."),
               fs)
          else
            let occurrences := pyCount content old_text
            let new_content :=
              if occurrences > 1 then pyReplaceFirst content old_text new_text
              else pyReplaceAll content old_text new_text
            let fs2 := fs.putFile rp new_content
            let d := diffCounts (strLines content) (strLines new_content)
            ({ success := true
               result := "Successfully applied edit to " ++ path ++ " ("
                 ++ toString occurrences ++ " occurrence(s), +" ++ toString d.1
                 ++ "/-" ++ toString d.2 ++ ")"
               modified_files := [path]
               file_modifications :=
                 [{ path := path
                    action := "edit"
                    lines_added := d.1
                    lines_deleted := d.2
                    before_content := some content
                    after_content := some new_content }] }, fs2)

/-- Embedding of ToolExecutor._create_directory (agentic_tools.py lines
1350-1385).  mkdir with parents and exist_ok raises only when the target
exists as a file, which becomes the caught error result. -/
def ToolExecutor.create_directory (ex : ToolExecutor) (path : String) (fs : FS) :
    ToolResult × FS :=
  match ex.resolve_path path with
  | none => (errRes ("Invalid or blocked path: " ++ path), fs)
  | some resolved =>
    if !ex.auto_mode then
      ({ success := false
         result := ""
         permission_required := true
         permission_type := some "create_directory"
         permission_details :=
           [("path", path), ("full_path", pathStr resolved),
            ("description", "Könyvtár létrehozás: " ++ path)] }, fs)
    else
      let rp := pathStr resolved
      if fs.isFile rp then (errRes ("Error creating directory: " ++ path), fs)
      else ({ success := true, result := "Successfully created directory: " ++ path },
        addDirAll resolved fs)

/-- Embedding of ToolExecutor._delete_file (agentic_tools.py lines
1387-1422): after the sandbox and existence checks it always returns a
permission-required result; the unlink lives only in
delete_file_approved.  The stat size is modelled as the content length. -/
def ToolExecutor.delete_file (ex : ToolExecutor) (path : String) (fs : FS) :
    ToolResult × FS :=
  match ex.resolve_path path with
  | none => (errRes ("Invalid or blocked path: " ++ path), fs)
  | some resolved =>
    let rp := pathStr resolved
    if !(fs.pathExists rp) then (errRes ("File not found: " ++ path), fs)
    else if !(fs.isFile rp) then
      (errRes ("Not a file (cannot delete directories this way): " ++ path), fs)
    else
      ({ success := false
         result := ""
         permission_required := true
         permission_type := some "delete"
         permission_details :=
           [("path", path), ("full_path", rp),
            ("size", toString ((fs.readFile rp).getD "").length)] }, fs)

/-- The arguments of the five handlers with a side effect or a permission
gate.  The remaining tools of the dispatch table (read_file,
get_file_info, continue_task, list_directory, search_in_files,
semantic_search) are read-only and build ToolResults with the default
permission_required false, so they carry no permission behaviour. -/
inductive ToolCallArgs where
  | write_file (path content : String)
  | apply_edit (path old_text new_text : String)
  | create_directory (path : String)
  | delete_file (path : String)
  | execute_terminal (command description : String)
      (working_directory : Option String) (timeout : Int)
  deriving Repr

/-- The dispatcher ToolExecutor.execute (agentic_tools.py lines 509-541)
restricted to the five effectful handlers. -/
def ToolExecutor.execute (ex : ToolExecutor) (call : ToolCallArgs) (fs : FS) :
    ToolResult × FS :=
  match call with
  | .write_file p c => ex.write_file p c fs
  | .apply_edit p o n => ex.apply_edit p o n fs
  | .create_directory p => ex.create_directory p fs
  | .delete_file p => ex.delete_file p fs
  | .execute_terminal c d w t => ex.execute_terminal c d w t fs

/-- Pending permission record (mode_manager.py lines 53-71).  The
action type is kept as its string value. -/
structure PendingAction where
  id : String
  action_type : String
  description : String
  details : List (String × String) := []
  created_at : String := ""
  approved : Option Bool := none
  deriving Repr, DecidableEq

/-- The process-wide registry state (mode_manager.py line 98): the
pending-action dict, modelled as an insertion-ordered association list
with unique keys on every reachable state. -/
structure ModeManager where
  pending_actions : List (String × PendingAction) := []
  deriving Repr, DecidableEq

/-- Replace the value under the first occurrence of a key (in-place
mutation of a dict entry). -/
def updFirst (k : String) (v : PendingAction) :
    List (String × PendingAction) → List (String × PendingAction)
  | [] => []
  | p :: t => if p.1 == k then (k, v) :: t else p :: updFirst k v t

/-- Remove the first occurrence of a key (dict.pop). -/
def popFirst (k : String) :
    List (String × PendingAction) → List (String × PendingAction)
  | [] => []
  | p :: t => if p.1 == k then t else p :: popFirst k t

/-- Embedding of ModeManager.create_pending_action (mode_manager.py lines
158-176); the uuid-derived fresh id is supplied by the caller. -/
def ModeManager.create_pending_action (mm : ModeManager) (action_id action_type
    description : String) (details : List (String × String)) :
    PendingAction × ModeManager :=
  let action : PendingAction :=
    { id := action_id, action_type := action_type, description := description,
      details := details }
  (action, { mm with pending_actions := mm.pending_actions ++ [(action_id, action)] })

/-- Embedding of ModeManager.approve_action (mode_manager.py lines
178-184): when found, the stored action is marked approved in place and
returned; the entry is NOT removed from the dict.  Unknown ids return
none. -/
def ModeManager.approve_action (mm : ModeManager) (action_id : String) :
    Option PendingAction × ModeManager :=
  match mm.pending_actions.lookup action_id with
  | some a =>
    let a1 := { a with approved := some true }
    (some a1, { mm with pending_actions := updFirst action_id a1 mm.pending_actions })
  | none => (none, mm)

/-- Embedding of ModeManager.reject_action (mode_manager.py lines
186-192): when found, the entry is popped from the dict, marked rejected
and returned.  Unknown ids return none. -/
def ModeManager.reject_action (mm : ModeManager) (action_id : String) :
    Option PendingAction × ModeManager :=
  match mm.pending_actions.lookup action_id with
  | some a =>
    (some { a with approved := some false },
     { mm with pending_actions := popFirst action_id mm.pending_actions })
  | none => (none, mm)

/-- Embedding of ModeManager.get_pending_actions (mode_manager.py lines
194-196). -/
def ModeManager.get_pending_actions (mm : ModeManager) : List PendingAction :=
  mm.pending_actions.map (·.2)

/-- Embedding of ModeManager.clear_pending_actions (mode_manager.py lines
198-200). -/
def ModeManager.clear_pending_actions (mm : ModeManager) : ModeManager :=
  { mm with pending_actions := [] }

/-- The tool-choice step of run_agentic_chat (agentic_tools.py lines
1894-1901).  All three quantities are nonnegative Python ints; the Nat
truncation in max_iterations - 2 agrees with the Python comparison,
because when the Python difference is negative every nonnegative
iteration index satisfies it, just as every Nat satisfies iteration
greater or equal zero. -/
def toolChoice (iteration max_iterations tool_calls_count : Nat) : String :=
  if iteration < 2 then "required"
  else if iteration ≥ max_iterations - 2 || tool_calls_count > 25 then "none"
  else "auto"

/-- One transcript message (the plain dicts run_agentic_chat builds):
role, content, the ids of any carried tool calls, and for tool-role
messages the answered call id. -/
structure Msg where
  role : String
  content : String := ""
  tool_calls : List String := []
  tool_call_id : Option String := none
  deriving Repr, DecidableEq

/-- The token-counting collaborator (token_manager.py): a per-text
counter and a per-transcript counter, kept abstract exactly as the
compactor consumes them. -/
structure TokenManager where
  countTokens : String → Nat
  countMessagesTokens : List Msg → Nat

/-- Context constants (agentic_tools.py lines 1659-1662). -/
def MAX_CONTEXT_BUDGET : Int := 25000

def MAX_TOOL_RESULT_TOKENS : Int := 2000

def MAX_SYSTEM_MSG_TOKENS : Int := 8000

def RESERVE_FOR_OUTPUT : Int := 8000

/-- The system-message admission loop of _enforce_context_budget
(agentic_tools.py lines 1697-1712): admit while the sub-budget allows,
then truncate the first overflowing message to roughly three characters
per remaining token when at least 500 tokens remain, and stop either
way. -/
def sysLoop (tm : TokenManager) (systemBudget : Int) :
    List Msg → Int → List Msg × Int
  | [], t => ([], t)
  | m :: rest, t =>
    let mt : Int := (tm.countTokens m.content : Int)
    if t + mt ≤ systemBudget then
      let r := sysLoop tm systemBudget rest (t + mt)
      (m :: r.1, r.2)
    else
      let available := systemBudget - t
      if available > 500 then
        ([{ m with content := strTake m.content (available * 3).toNat
              ++ "\n\n[... system message csonkolva a kontextus limit miatt ...]" }],
         t + available)
      else ([], t)

/-- The call/response grouping of _enforce_context_budget (agentic_tools.py
lines 1727-1748) over index-tagged non-system messages: an assistant
message with a nonempty tool_calls list starts a group that absorbs the
immediately following tool messages answering one of its call ids.  The
fuel is the list length, enough since every step consumes at least one
element. -/
def buildPairsFuel : Nat → List (Nat × Msg) → List (List (Nat × Msg))
  | 0, _ => []
  | _ + 1, [] => []
  | fuel + 1, (i, m) :: rest =>
    if m.role == "assistant" && !m.tool_calls.isEmpty then
      let tail := rest.takeWhile fun p =>
        p.2.role == "tool" &&
          (match p.2.tool_call_id with
           | some tid => m.tool_calls.contains tid
           | none => false)
      ((i, m) :: tail) :: buildPairsFuel fuel (rest.drop tail.length)
    else buildPairsFuel fuel rest

/-- The in-place truncation applied to an oversized kept group
(agentic_tools.py lines 1758-1765): tool-role messages of more than 60
lines keep their first and last 30 lines around an elision marker. -/
def truncToolMsg (m : Msg) : Msg :=
  if m.role == "tool" then
    let lines := strLines m.content
    if lines.length > 60 then
      { m with content := joinLines (lines.take 30)
          ++ "\n\n... [" ++ toString (lines.length - 60) ++ " sor kihagyva] ...\n\n"
          ++ joinLines (lines.drop (lines.length - 30)) }
    else m
  else m

/-- The kept-group admission loop (agentic_tools.py lines 1753-1769).
Groups whose original combined token count exceeds twice the per-result
cap are truncated in place - recorded in the returned mutation list,
since the group aliases the caller's message objects - and a group is
appended only when the budget estimate still fits; the running total
then grows by the actual post-truncation size. -/
def keptLoop (tm : TokenManager) (target : Int) :
    List (List (Nat × Msg)) → Int → List Msg × List (Nat × Msg)
  | [], _ => ([], [])
  | pair :: rest, used =>
    let pairTokens : Int := pair.foldl (fun acc p => acc + (tm.countTokens p.2.content : Int)) 0
    let oversized := pairTokens > MAX_TOOL_RESULT_TOKENS * 2
    let pair1 := if oversized then pair.map (fun p => (p.1, truncToolMsg p.2)) else pair
    let muts := if oversized then pair1 else []
    if used + MAX_TOOL_RESULT_TOKENS * 2 ≤ target then
      let used1 := used + pair1.foldl (fun acc p => acc + (tm.countTokens p.2.content : Int)) 0
      let r := keptLoop tm target rest used1
      (pair1.map (·.2) ++ r.1, muts ++ r.2)
    else
      let r := keptLoop tm target rest used
      (r.1, muts ++ r.2)

/-- Python list.insert semantics on message lists. -/
def insertAt (n : Nat) (x : Msg) (l : List Msg) : List Msg :=
  l.take n ++ x :: l.drop n

/-- Replay of the recorded in-place mutations onto the caller's list: the
second component of the embedded compactor, giving the state of the
input message objects after the call. -/
def applyMuts (msgs : List Msg) (muts : List (Nat × Msg)) : List Msg :=
  msgs.enum.map fun p =>
    match muts.find? (fun q => q.1 == p.1) with
    | some q => q.2
    | none => p.2

/-- Embedding of _enforce_context_budget (agentic_tools.py lines
1665-1784).  The function returns the rebuilt transcript together with
the caller's message list as it stands after the call, reflecting the
in-place truncation of oversized kept groups; a transcript already
within budget is returned unchanged.  The token manager is taken as
present (a missing one makes the function the identity). -/
def enforce_context_budget (tm : TokenManager) (msgs : List Msg)
    (budget : Int := MAX_CONTEXT_BUDGET) : List Msg × List Msg :=
  let current : Int := (tm.countMessagesTokens msgs : Int)
  let target := budget - RESERVE_FOR_OUTPUT
  if current ≤ target then (msgs, msgs)
  else
    let systemMsgs := msgs.filter fun m => m.role == "system"
    let otherMsgs := msgs.filter fun m => !(m.role == "system")
    let otherIdx := msgs.enum.filter fun p => !(p.2.role == "system")
    let systemBudget := min MAX_SYSTEM_MSG_TOKENS (Int.fdiv target 3)
    let sys := sysLoop tm systemBudget systemMsgs 0
    let tokensUsed0 := sys.2
    let userMsgs := otherMsgs.filter fun m => m.role == "user"
    let userPart : List Msg :=
      match userMsgs.getLast? with
      | some u => [u]
      | none => []
    let tokensUsed1 := tokensUsed0 +
      (match userMsgs.getLast? with
       | some u => (tm.countTokens u.content : Int)
       | none => 0)
    let pairs := buildPairsFuel otherIdx.length otherIdx
    let kept := pairs.drop (pairs.length - 3)
    let k := keptLoop tm target kept tokensUsed1
    let result0 := sys.1 ++ userPart ++ k.1
    let dropped : Int := (msgs.length : Int) - (result0.length : Int)
    let result :=
      if dropped > 5 then
        insertAt ((result0.filter fun m => m.role == "system").length)
          { role := "system"
            content := "[KONTEXTUS ÖSSZEGZÉS: " ++ toString dropped
              ++ " korábbi üzenet eltávolítva a méret limit miatt. Folytatsd a munkát az utolsó tool eredmények alapján.]" }
          result0
      else result0
    (result, applyMuts msgs k.2)

/-- Stated from the claim wording of C3: the most recent user message of
a transcript. -/
def lastUserMsg (msgs : List Msg) : Option Msg :=
  (msgs.filter fun m => m.role == "user").getLast?

/-- An executor in MANUAL mode over project root /r. -/
def exManual : ToolExecutor := ⟨["r"], false⟩

/-- An executor in AUTO mode over project root /r. -/
def exAuto : ToolExecutor := ⟨["r"], true⟩

/-- An empty filesystem. -/
def fsEmpty : FS := {}

/-- A file whose content has two spaces where the edit needle has one. -/
def fsWs : FS := { files := [("/r/f.txt", "a  b")] }

/-- A ten-character file for the write-guard band instances. -/
def fsSmall : FS := { files := [("/r/g.txt", "aaaaaaaaaa")] }

/-- A 2000-character file content. -/
def bigOrig : String := String.mk (List.replicate 2000 'a')

/-- A 700-character replacement content. -/
def bigNew : String := String.mk (List.replicate 700 'b')

/-- A filesystem holding the 2000-character file. -/
def fsBig : FS := { files := [("/r/big.txt", bigOrig)] }

/-- A six-character replacement inside the 50-80 percent band carrying a
mojibake pattern next to a non-Latin-1 character, so the automatic
repair fails. -/
def bandMoj : String := "Ã¡€aaa"

/-- A pending action and a registry holding it. -/
def act4 : PendingAction :=
  { id := "a1", action_type := "code_delete", description := "delete x" }

/-- A registry with exactly the one pending action. -/
def mm4 : ModeManager := { pending_actions := [("a1", act4)] }

/-- A character-count token manager, the simplest admissible counting
collaborator. -/
def tmLen : TokenManager :=
  ⟨fun s => s.length, fun l => (l.map fun m => m.content.length).sum⟩

/-- A transcript holding one twenty-character user message. -/
def msgsLongUser : List Msg := [{ role := "user", content := "aaaaaaaaaaaaaaaaaaaa" }]

/-- A token manager weighing every character as one hundred tokens. -/
def tmHundred : TokenManager :=
  ⟨fun s => s.length * 100, fun l => (l.map fun m => m.content.length * 100).sum⟩

/-- A 61-line tool result content. -/
def toolContent61 : String := joinLines (List.replicate 61 "x")

/-- A transcript holding one call/response group with an oversized
61-line tool result. -/
def msgsToolPair : List Msg :=
  [{ role := "assistant", content := "", tool_calls := ["1"] },
   { role := "tool", content := toolContent61, tool_call_id := some "1" }]

theorem prefB_refl (l : List Char) : prefB l l = true := by
  induction l with
  | nil => rfl
  | cons a t ih => simp [prefB, ih]

/-- C7: the loop driver's tool-use directive is claimed to be required on
the first two iterations, none inside the final two iterations or past
25 tool calls, and auto otherwise, with the directive never required
inside the final two iterations.  Counterexample: with an iteration
budget of 3, iteration 1 lies inside the final two iterations yet the
code forces required, because the first-two-iterations branch is tested
first. -/
theorem C7_counterexample : toolChoice 1 3 0 = "required" ∧ 3 - 2 ≤ 1 := by decide

/-- C7 amended: the first-two-iterations branch takes priority, so the
directive is required whenever the iteration index is below two, even
inside the final two iterations; otherwise it is none once the index
reaches the budget minus two or the call count exceeds 25, and auto
otherwise; the directive is never required inside the final two
iterations only when the budget is at least 4. -/
theorem C7_amended (i N c : Nat) :
    (i < 2 → toolChoice i N c = "required") ∧
    (2 ≤ i → (N - 2 ≤ i ∨ 25 < c) → toolChoice i N c = "none") ∧
    (2 ≤ i → i < N - 2 → c ≤ 25 → toolChoice i N c = "auto") ∧
    (4 ≤ N → N - 2 ≤ i → toolChoice i N c ≠ "required") := by
  refine ⟨?_, ?_, ?_, ?_⟩
  · intro h
    simp [toolChoice, h]
  · intro h2 hor
    unfold toolChoice
    rw [if_neg (by omega)]
    rw [if_pos]
    simp only [Bool.or_eq_true, decide_eq_true_eq]
    exact hor.imp id id
  · intro h2 hlt hle
    unfold toolChoice
    rw [if_neg (by omega), if_neg]
    simp only [Bool.or_eq_true, decide_eq_true_eq]
    push_neg
    exact ⟨by omega, by omega⟩
  · intro hN hi
    unfold toolChoice
    rw [if_neg (by omega), if_pos]
    · simp
    · simp only [Bool.or_eq_true, decide_eq_true_eq]
      exact Or.inl hi

/-- C7 witness: the amended characterization evaluated at concrete
iterations of a ten-iteration run and at the last iterations. -/
theorem C7_amended_witness :
    ((0 : Nat) < 2 ∧ toolChoice 0 10 0 = "required") ∧
    (2 ≤ 8 ∧ toolChoice 8 10 0 = "none") ∧
    (2 ≤ 5 ∧ 5 < 10 - 2 ∧ toolChoice 5 10 0 = "auto") ∧
    (4 ≤ 10 ∧ 10 - 2 ≤ 9 ∧ toolChoice 9 10 0 ≠ "required") :=
  ⟨⟨by decide, (C7_amended 0 10 0).1 (by decide)⟩,
   ⟨by decide, (C7_amended 8 10 0).2.1 (by decide) (Or.inl (by decide))⟩,
   ⟨by decide, by decide, (C7_amended 5 10 0).2.2.1 (by decide) (by decide) (by decide)⟩,
   ⟨by decide, by decide, (C7_amended 9 10 0).2.2.2 (by decide) (by decide)⟩⟩

/-- C8: every string containing a known double-encoded pattern is
flagged, but the repair round trip is claimed to always come back clean.
Counterexample: a string carrying the mojibake pair next to a Euro sign
cannot be Latin-1 encoded, so fix_mojibake returns it unchanged and the
detector still flags it after repair. -/
theorem C8_counterexample :
    detect_mojibake "Ã¡€" = true ∧
    detect_mojibake (fix_mojibake "Ã¡€") = true := by decide

/-- C8 amended: every string containing one of the nine listed patterns
is flagged by the detector, and the repair round trip reports clean on
each canonical single-level pattern itself; but strings with
non-Latin-1 characters (or nested double encodings) can stay flagged
after repair, so the clean round trip is not universal. -/
theorem C8_amended :
    (∀ s : String, mojibakePatterns.any (fun p => strContains s p) = true →
      detect_mojibake s = true) ∧
    (mojibakePatterns.all fun p =>
      detect_mojibake p && !(detect_mojibake (fix_mojibake p))) = true := by
  constructor
  · intro s h
    have hne : s.isEmpty = false := by
      by_contra hc
      rw [Bool.not_eq_false, String.isEmpty_iff] at hc
      subst hc
      rw [show (mojibakePatterns.any fun p => strContains "" p) = false from by decide] at h
      exact Bool.false_ne_true h
    simp [detect_mojibake, hne, h]
  · decide

/-- C8 witness: the amended detector property evaluated at the canonical
mojibake of the a-acute vowel. -/
theorem C8_amended_witness :
    (mojibakePatterns.any fun p => strContains "Ã¡" p) = true ∧
    detect_mojibake "Ã¡" = true :=
  ⟨by decide, C8_amended.1 "Ã¡" (by decide)⟩

/-- C2: the claim says every path containing a parent-traversal segment
is rejected and every accepted path canonicalizes to the root or a true
segment descendant of it.  Counterexample: a trailing dot-dot segment
escapes the deny-list (whose traversal pattern requires a trailing
slash) and resolves to an accepted path; and an absolute sibling sharing
the root as a string prefix is accepted although it is not a segment
descendant. -/
theorem C2_counterexample :
    (specHasParentSegment "a/.." = true ∧
      ToolExecutor.resolve_path ⟨["home", "proj"], true⟩ "a/.." = some ["home", "proj"]) ∧
    (ToolExecutor.resolve_path ⟨["home", "proj"], true⟩ "/home/proj2" = some ["home", "proj2"] ∧
      specRootOrDescendant ["home", "proj"] ["home", "proj2"] = false) := by decide

/-- C2 amended: every input matching one of the literal deny-list
patterns (parent traversal written with a trailing slash, git internals,
node_modules, pycache, dotenv files, virtual environments) is rejected
before any filesystem access, and every accepted path canonicalizes to a
path whose string form has the project root string as prefix - which
admits the root, its descendants, and prefix-siblings, but not more. -/
theorem C2_amended :
    (∀ (ex : ToolExecutor) (rel : String), isBlockedPath rel = true →
        ex.resolve_path rel = none) ∧
    (∀ (ex : ToolExecutor) (rel : String) (p : PathSegs),
        ex.resolve_path rel = some p →
        strStartsWith (pathStr p) (pathStr ex.root) = true) := by
  constructor
  · intro ex rel h
    have hne : rel ≠ "" := by
      intro e
      subst e
      rw [show isBlockedPath "" = false from by decide] at h
      exact Bool.false_ne_true h
    simp [ToolExecutor.resolve_path, hne, h]
  · intro ex rel p h
    unfold ToolExecutor.resolve_path at h
    by_cases h0 : rel = ""
    · rw [if_pos h0] at h
      cases h
      simp [strStartsWith, prefB_refl]
    · rw [if_neg h0] at h
      by_cases hb : isBlockedPath rel = true
      · rw [if_pos hb] at h
        exact absurd h (by simp)
      · rw [if_neg hb] at h
        dsimp only at h
        split at h <;> split at h
        all_goals first
          | (cases h; assumption)
          | exact absurd h (by simp)

/-- C2 witness: the amended properties evaluated on a node_modules path
(rejected) and on an ordinary source path (accepted, prefix holds). -/
theorem C2_amended_witness :
    (isBlockedPath "node_modules/x.js" = true ∧
      ToolExecutor.resolve_path ⟨["home", "proj"], true⟩ "node_modules/x.js" = none) ∧
    (ToolExecutor.resolve_path ⟨["home", "proj"], true⟩ "src/a.py"
        = some ["home", "proj", "src", "a.py"] ∧
      strStartsWith (pathStr ["home", "proj", "src", "a.py"]) (pathStr ["home", "proj"]) = true) :=
  ⟨⟨by decide, C2_amended.1 ⟨["home", "proj"], true⟩ "node_modules/x.js" (by decide)⟩,
   ⟨by decide, C2_amended.2 ⟨["home", "proj"], true⟩ "src/a.py" ["home", "proj", "src", "a.py"]
      (by decide)⟩⟩

/-- C6: an edit whose old and new text coincide always fails without
touching the file, in both the direct handler (any mode, since the no-op
guard precedes the manual gate) and the approved entry point, and no
FileModification is produced. -/
theorem C6_noop_edit_always_fails (ex : ToolExecutor) (fs : FS)
    (path X : String) (hash : Option String) :
    ((ex.apply_edit path X X fs).1.success = false ∧
      (ex.apply_edit path X X fs).1.file_modifications = [] ∧
      (ex.apply_edit path X X fs).2 = fs) ∧
    ((ex.apply_edit_approved path X X hash fs).1.success = false ∧
      (ex.apply_edit_approved path X X hash fs).1.file_modifications = [] ∧
      (ex.apply_edit_approved path X X hash fs).2 = fs) := by
  constructor
  · unfold ToolExecutor.apply_edit
    cases hres : ex.resolve_path path with
    | none => simp [errRes]
    | some resolved =>
      dsimp only
      split
      · simp [errRes]
      · simp [errRes]
  · unfold ToolExecutor.apply_edit_approved
    cases hres : ex.resolve_path path with
    | none => simp [errRes]
    | some resolved =>
      dsimp only
      split
      · simp [errRes]
      · simp [errRes]

theorem lookup_none_of_not_mem_keys (k : String) :
    ∀ l : List (String × PendingAction), k ∉ l.map Prod.fst → l.lookup k = none := by
  intro l
  induction l with
  | nil => intro _; rfl
  | cons p t ih =>
    intro h
    obtain ⟨a, b⟩ := p
    simp only [List.map_cons, List.mem_cons, not_or] at h
    have hka : (k == a) = false := beq_eq_false_iff_ne.mpr h.1
    simp [List.lookup, hka, ih h.2]

theorem lookup_popFirst_self (k : String) :
    ∀ l : List (String × PendingAction),
      (l.map Prod.fst).Nodup → (popFirst k l).lookup k = none := by
  intro l
  induction l with
  | nil => intro _; rfl
  | cons p t ih =>
    intro h
    obtain ⟨a, b⟩ := p
    simp only [List.map_cons, List.nodup_cons] at h
    by_cases hak : (a == k) = true
    · have hae : a = k := by simpa using hak
      simp only [popFirst, hak, if_true]
      subst hae
      exact lookup_none_of_not_mem_keys a t h.1
    · have hak2 : (a == k) = false := by simpa using hak
      have hka : (k == a) = false :=
        beq_eq_false_iff_ne.mpr fun e => (beq_eq_false_iff_ne.mp hak2) e.symm
      simp only [popFirst, hak2, Bool.false_eq_true, if_false]
      simp [List.lookup, hka, ih h.2]

theorem lookup_updFirst_self (k : String) (v : PendingAction) :
    ∀ l : List (String × PendingAction),
      (l.lookup k).isSome → (updFirst k v l).lookup k = some v := by
  intro l
  induction l with
  | nil => intro h; simp [List.lookup] at h
  | cons p t ih =>
    intro h
    obtain ⟨a, b⟩ := p
    by_cases hka : (k == a) = true
    · have hae : a = k := by
        have : k = a := by simpa using hka
        exact this.symm
      have hak : (a == k) = true := by simp [hae]
      simp [updFirst, hak, List.lookup]
    · have hka2 : (k == a) = false := by simpa using hka
      have hak : (a == k) = false :=
        beq_eq_false_iff_ne.mpr fun e => (beq_eq_false_iff_ne.mp hka2) e.symm
      simp only [List.lookup, hka2] at h
      simp only [updFirst, hak, Bool.false_eq_true, if_false]
      simp [List.lookup, hka2]
      exact ih h

/-- C4: the claim says approve and reject are both idempotent removals
from the pending map.  Counterexample: on a registry holding one action,
approve succeeds but the action remains in the pending list and a second
approve returns it again instead of a not-found result; only reject
removes. -/
theorem C4_counterexample :
    (mm4.approve_action "a1").1.isSome = true ∧
    (mm4.approve_action "a1").2.get_pending_actions ≠ [] ∧
    ((mm4.approve_action "a1").2.approve_action "a1").1 ≠ none := by decide

/-- C4 amended: reject_action is an idempotent removal - after a
successful reject the id is gone from the pending map and a replay of
either operation returns none - while approve_action only marks the
stored action approved and keeps it in the map, so a second approve
returns the same marked action again.  The key-uniqueness hypothesis
holds on every reachable registry state, since Python dict keys are
unique. -/
theorem C4_amended (mm : ModeManager) (aid : String)
    (hN : (mm.pending_actions.map Prod.fst).Nodup) :
    (∀ a, (mm.reject_action aid).1 = some a →
      ((mm.reject_action aid).2.pending_actions.lookup aid = none ∧
        ((mm.reject_action aid).2.reject_action aid).1 = none ∧
        ((mm.reject_action aid).2.approve_action aid).1 = none)) ∧
    (∀ b, (mm.approve_action aid).1 = some b →
      ((mm.approve_action aid).2.pending_actions.lookup aid = some b ∧
        ((mm.approve_action aid).2.approve_action aid).1 = some b)) := by
  have h1 : (popFirst aid mm.pending_actions).lookup aid = none :=
    lookup_popFirst_self aid _ hN
  constructor
  · intro a ha
    unfold ModeManager.reject_action at ha ⊢
    cases hl : mm.pending_actions.lookup aid with
    | none =>
      rw [hl] at ha
      exact absurd ha (by simp)
    | some a0 =>
      dsimp only
      refine ⟨h1, ?_, ?_⟩
      · rw [h1]
      · unfold ModeManager.approve_action
        dsimp only
        rw [h1]
  · intro b hb
    unfold ModeManager.approve_action at hb ⊢
    cases hl : mm.pending_actions.lookup aid with
    | none =>
      rw [hl] at hb
      exact absurd hb (by simp)
    | some a0 =>
      rw [hl] at hb
      dsimp only at hb
      have hbe : b = { a0 with approved := some true } := by
        cases hb
        rfl
      dsimp only
      have hup : (updFirst aid { a0 with approved := some true }
          mm.pending_actions).lookup aid = some { a0 with approved := some true } :=
        lookup_updFirst_self aid _ mm.pending_actions (by rw [hl]; rfl)
      constructor
      · rw [hup, hbe]
      · rw [hup, hbe]

/-- C4 witness: the amended behaviour evaluated on the one-action
registry: reject removes and replays return none; approve marks and
retains, and its replay returns the marked action. -/
theorem C4_amended_witness :
    ((mm4.reject_action "a1").1 = some { act4 with approved := some false } ∧
      (mm4.reject_action "a1").2.pending_actions.lookup "a1" = none ∧
      ((mm4.reject_action "a1").2.reject_action "a1").1 = none ∧
      ((mm4.reject_action "a1").2.approve_action "a1").1 = none) ∧
    ((mm4.approve_action "a1").1 = some { act4 with approved := some true } ∧
      (mm4.approve_action "a1").2.pending_actions.lookup "a1"
        = some { act4 with approved := some true } ∧
      ((mm4.approve_action "a1").2.approve_action "a1").1
        = some { act4 with approved := some true }) := by
  have h := C4_amended mm4 "a1" (by decide)
  have h1 := h.1 { act4 with approved := some false } (by decide)
  have h2 := h.2 { act4 with approved := some true } (by decide)
  exact ⟨⟨by decide, h1.1, h1.2.1, h1.2.2⟩, ⟨by decide, h2.1, h2.2⟩⟩

/-- C1: whenever a tool invocation returns a permission-required result,
the result is unsuccessful, the filesystem is untouched, and both
modification lists are empty - across the gated handlers in every mode
(the read-only handlers never set the flag). -/
theorem C1_gate_no_side_effect (ex : ToolExecutor) (call : ToolCallArgs) (fs : FS) :
    (ex.execute call fs).1.permission_required = true →
    ((ex.execute call fs).1.success = false ∧
     (ex.execute call fs).1.modified_files = [] ∧
     (ex.execute call fs).1.file_modifications = [] ∧
     (ex.execute call fs).2 = fs) := by
  cases call with
  | write_file p c =>
    unfold ToolExecutor.execute ToolExecutor.write_file
    dsimp only
    repeat' split
    all_goals intro h
    all_goals simp_all [errRes]
  | apply_edit p o n =>
    unfold ToolExecutor.execute ToolExecutor.apply_edit
    dsimp only
    repeat' split
    all_goals intro h
    all_goals simp_all [errRes]
  | create_directory p =>
    unfold ToolExecutor.execute ToolExecutor.create_directory
    dsimp only
    repeat' split
    all_goals intro h
    all_goals simp_all [errRes]
  | delete_file p =>
    unfold ToolExecutor.execute ToolExecutor.delete_file
    dsimp only
    repeat' split
    all_goals intro h
    all_goals simp_all [errRes]
  | execute_terminal cmd d w t =>
    unfold ToolExecutor.execute ToolExecutor.execute_terminal
    dsimp only
    intro h
    simp_all [errRes]

/-- C1 witness: a manual-mode write is gated, and the theorem yields the
absence of every side effect at that concrete call. -/
theorem C1_gate_no_side_effect_witness :
    (exManual.execute (ToolCallArgs.write_file "a.txt" "hi") fsEmpty).1.permission_required
      = true ∧
    (exManual.execute (ToolCallArgs.write_file "a.txt" "hi") fsEmpty).1.success = false ∧
    (exManual.execute (ToolCallArgs.write_file "a.txt" "hi") fsEmpty).1.modified_files = [] ∧
    (exManual.execute (ToolCallArgs.write_file "a.txt" "hi") fsEmpty).1.file_modifications = [] ∧
    (exManual.execute (ToolCallArgs.write_file "a.txt" "hi") fsEmpty).2 = fsEmpty := by
  have h := C1_gate_no_side_effect exManual (ToolCallArgs.write_file "a.txt" "hi") fsEmpty
    (by decide)
  exact ⟨by decide, h.1, h.2.1, h.2.2.1, h.2.2.2⟩

theorem lookup_setA_self (k v : String) :
    ∀ l : List (String × String), (setA k v l).lookup k = some v := by
  intro l
  induction l with
  | nil => simp [setA, List.lookup]
  | cons p t ih =>
    obtain ⟨a, b⟩ := p
    by_cases hak : (a == k) = true
    · simp [setA, hak, List.lookup]
    · have hak2 : (a == k) = false := by simpa using hak
      have hka : (k == a) = false :=
        beq_eq_false_iff_ne.mpr fun e => (beq_eq_false_iff_ne.mp hak2) e.symm
      simp [setA, hak2, List.lookup, hka, ih]

theorem readFile_putFile_self (fs : FS) (p c : String) :
    (fs.putFile p c).readFile p = some c := by
  unfold FS.putFile FS.readFile
  exact lookup_setA_self p c fs.files

/-- C5: the claim says an AUTO-mode overwrite with new content between
50 and 80 percent of the original always proceeds with only a warning.
Counterexample: a six-character replacement of a ten-character file (60
percent) is blocked by the encoding guard, because it carries a mojibake
pattern next to a non-Latin-1 character so the automatic repair fails
and the write introduces mojibake the original did not have. -/
theorem C5_counterexample :
    fsSmall.readFile "/r/g.txt" = some "aaaaaaaaaa" ∧
    ("aaaaaaaaaa" : String).length ≤ 2 * bandMoj.length ∧
    5 * bandMoj.length < 4 * ("aaaaaaaaaa" : String).length ∧
    (exAuto.write_file "g.txt" bandMoj fsSmall).1.success = false ∧
    (exAuto.write_file "g.txt" bandMoj fsSmall).2 = fsSmall := by decide

/-- C5 amended: for an AUTO-mode write onto an existing file with
mojibake-free new content, the truncation guard blocks exactly when the
new length is under half the original and the original exceeds 1000
characters, leaving the file unchanged; at or above half - in
particular throughout the 50-80 percent band - the truncation guard
does not fire and the write goes through (the encoding guard being
satisfied by clean content). -/
theorem C5_amended (ex : ToolExecutor) (path content : String) (fs : FS)
    (rsegs : PathSegs) (original : String)
    (hauto : ex.auto_mode = true)
    (hres : ex.resolve_path path = some rsegs)
    (hread : fs.readFile (pathStr rsegs) = some original)
    (hdet : detect_mojibake content = false) :
    (2 * content.length < original.length → 1000 < original.length →
      ((ex.write_file path content fs).1.success = false ∧
       (ex.write_file path content fs).1.error ≠ none ∧
       (ex.write_file path content fs).2 = fs)) ∧
    (original.length ≤ 2 * content.length → fs.isDir (pathStr rsegs) = false →
      ((ex.write_file path content fs).1.success = true ∧
       (ex.write_file path content fs).2.readFile (pathStr rsegs) = some content)) := by
  unfold ToolExecutor.write_file
  simp only [hres, hauto, hdet, hread, Bool.not_true, Bool.false_eq_true, if_false]
  constructor
  · intro hlt hgt
    rw [if_pos (show (decide (2 * content.length < original.length) &&
        decide (original.length > 1000)) = true by
      simp only [Bool.and_eq_true, decide_eq_true_eq]
      exact ⟨hlt, hgt⟩)]
    exact ⟨rfl, by simp [errRes], rfl⟩
  · intro hge hdir
    rw [if_neg (show ¬((decide (2 * content.length < original.length) &&
        decide (original.length > 1000)) = true) by
      simp only [Bool.and_eq_true, decide_eq_true_eq, not_and]
      intro hx
      omega)]
    rw [if_neg (show ¬((!validate_encoding_safety original content) = true) by
      simp [validate_encoding_safety, hdet])]
    rw [if_neg (show ¬(fs.isDir (pathStr rsegs) = true) by simp [hdir])]
    exact ⟨rfl, readFile_putFile_self _ _ _⟩

theorem subB_head_mem (a : Char) (as : List Char) :
    ∀ hay : List Char, subB (a :: as) hay = true → a ∈ hay := by
  intro hay
  induction hay with
  | nil => intro h; simp [subB, List.isEmpty] at h
  | cons c t ih =>
    intro h
    simp only [subB, Bool.or_eq_true] at h
    rcases h with h | h
    · obtain ⟨h1, _⟩ := by simpa only [prefB, Bool.and_eq_true, beq_iff_eq] using h
      subst h1
      exact List.mem_cons_self a t
    · exact List.mem_cons_of_mem _ (ih h)

theorem strContains_head_mem (hay p : String) (a : Char) (as : List Char)
    (hp : p.toList = a :: as) (hc : strContains hay p = true) : a ∈ hay.toList := by
  unfold strContains at hc
  rw [hp] at hc
  exact subB_head_mem a as _ hc

theorem detect_of_no_lead (s : String)
    (hA : 'Ã' ∉ s.toList) (hB : 'Å' ∉ s.toList) :
    detect_mojibake s = false := by
  have hany : (mojibakePatterns.any fun p => strContains s p) = false := by
    by_contra hx
    rw [Bool.not_eq_false, List.any_eq_true] at hx
    obtain ⟨p, hp, hc⟩ := hx
    simp only [mojibakePatterns, List.mem_cons, List.not_mem_nil, or_false] at hp
    rcases hp with h | h | h | h | h | h | h | h | h <;> subst h <;>
      first
        | exact hA (strContains_head_mem s _ _ _ rfl hc)
        | exact hB (strContains_head_mem s _ _ _ rfl hc)
  have hchar : strHasChar s 'Ã' = false := by
    unfold strHasChar
    by_contra hx
    rw [Bool.not_eq_false] at hx
    exact hA (List.mem_of_elem_eq_true hx)
  unfold detect_mojibake
  simp [hany, hchar]

theorem bigNew_clean : detect_mojibake bigNew = false := by
  apply detect_of_no_lead <;>
  · show ¬ _ ∈ (String.mk (List.replicate 700 'b')).toList
    simp only [String.toList, List.mem_replicate]
    decide

theorem bigNew_length : bigNew.length = 700 := by
  show (List.replicate 700 'b').length = 700
  exact List.length_replicate 700 'b'

theorem bigOrig_length : bigOrig.length = 2000 := by
  show (List.replicate 2000 'a').length = 2000
  exact List.length_replicate 2000 'a'

/-- C5 witness: writing 700 characters over the existing 2000-character
file is rejected with the file unchanged, and a six-character clean
write over the ten-character file (60 percent) succeeds. -/
theorem C5_amended_witness :
    ((exAuto.write_file "big.txt" bigNew fsBig).1.success = false ∧
     (exAuto.write_file "big.txt" bigNew fsBig).2 = fsBig) ∧
    ((exAuto.write_file "g.txt" "bbbbbb" fsSmall).1.success = true ∧
     (exAuto.write_file "g.txt" "bbbbbb" fsSmall).2.readFile "/r/g.txt" = some "bbbbbb") := by
  constructor
  · have h := (C5_amended exAuto "big.txt" bigNew fsBig ["r", "big.txt"] bigOrig
      (by decide) (by decide)
      (by rw [show pathStr ["r", "big.txt"] = "/r/big.txt" from by decide]
          simp [fsBig, FS.readFile, List.lookup])
      bigNew_clean).1
      (by rw [bigNew_length, bigOrig_length]; omega)
      (by rw [bigOrig_length]; omega)
    exact ⟨h.1, h.2.2⟩
  · exact (C5_amended exAuto "g.txt" "bbbbbb" fsSmall ["r", "g.txt"] "aaaaaaaaaa"
      (by decide) (by decide) (by decide) (by decide)).2 (by decide) (by decide)

/-- C9: evaluation of the AUTO-mode edit at the failing input.  The file
holds the four characters a-space-space-b; old_text (with one space) is
absent literally but matches after whitespace normalization, so the
handler falls through without adjusting the needle, replaces zero
occurrences, writes the identical content back - and still reports
success carrying an edit FileModification with one added and one deleted
line, although the file content is unchanged. -/
theorem C9_phantom_edit_reported :
    (exAuto.apply_edit "f.txt" "a b" "a X" fsWs).1.success = true ∧
    (exAuto.apply_edit "f.txt" "a b" "a X" fsWs).1.file_modifications =
      [{ path := "f.txt", action := "edit", lines_added := 1, lines_deleted := 1,
         before_content := some "a  b", after_content := some "a  b" }] ∧
    (exAuto.apply_edit "f.txt" "a b" "a X" fsWs).2.readFile "/r/f.txt"
      = fsWs.readFile "/r/f.txt" := by decide

theorem mem_insertAt {a x : Msg} {n : Nat} {l : List Msg} (h : a ∈ l) :
    a ∈ insertAt n x l := by
  unfold insertAt
  rcases List.mem_append.mp ((List.take_append_drop n l).symm ▸ h) with h1 | h2
  · exact List.mem_append.mpr (Or.inl h1)
  · exact List.mem_append.mpr (Or.inr (List.mem_cons_of_mem _ h2))

/-- C3: a transcript within budget is returned unchanged and the rebuilt
transcript keeps the most recent user message, but the claim also says
the rebuilt transcript always fits within budget minus reserve.
Counterexample: with budget 8010 (target 10) and a single twenty-token
user message, the rebuild keeps that message unconditionally and the
result still counts twenty tokens. -/
theorem C3_counterexample :
    (8010 : Int) - RESERVE_FOR_OUTPUT < (tmLen.countMessagesTokens msgsLongUser : Int) ∧
    msgsLongUser.filter (fun m => m.role == "user") ≠ [] ∧
    ¬((tmLen.countMessagesTokens (enforce_context_budget tmLen msgsLongUser 8010).1 : Int)
        ≤ 8010 - RESERVE_FOR_OUTPUT) := by decide

/-- C3 amended: a transcript whose token count is at most budget minus
reserve is returned unchanged, and every over-threshold transcript with
a user message is rebuilt to contain the most recent user message; the
fit guarantee does not hold, since the last user message (and the
admitted groups, whose sizes are only estimated) can exceed the
remaining budget. -/
theorem C3_amended (tm : TokenManager) (budget : Int) (msgs : List Msg) :
    ((tm.countMessagesTokens msgs : Int) ≤ budget - RESERVE_FOR_OUTPUT →
      enforce_context_budget tm msgs budget = (msgs, msgs)) ∧
    (∀ u, budget - RESERVE_FOR_OUTPUT < (tm.countMessagesTokens msgs : Int) →
      lastUserMsg msgs = some u →
      u ∈ (enforce_context_budget tm msgs budget).1) := by
  constructor
  · intro h
    unfold enforce_context_budget
    rw [if_pos h]
  · intro u hover hlast
    unfold enforce_context_budget
    rw [if_neg (not_le.mpr hover)]
    have hfilter : (msgs.filter fun m => !(m.role == "system")).filter
        (fun m => m.role == "user") = msgs.filter fun m => m.role == "user" := by
      rw [List.filter_filter]
      apply List.filter_congr
      intro m _
      by_cases hu : (m.role == "user") = true
      · have hm : m.role = "user" := by simpa using hu
        rw [hm]
        decide
      · have hu2 : (m.role == "user") = false := by simpa using hu
        rw [hu2]
        simp
    unfold lastUserMsg at hlast
    dsimp only
    rw [hfilter, hlast]
    split
    · exact mem_insertAt (by simp)
    · simp

/-- C3 witness: the amended behaviour at the twenty-token transcript:
under the default budget it is returned unchanged; under budget 8010 it
is over threshold and the rebuilt transcript contains the user
message. -/
theorem C3_amended_witness :
    ((tmLen.countMessagesTokens msgsLongUser : Int) ≤ 25000 - RESERVE_FOR_OUTPUT ∧
      enforce_context_budget tmLen msgsLongUser 25000 = (msgsLongUser, msgsLongUser)) ∧
    (8010 - RESERVE_FOR_OUTPUT < (tmLen.countMessagesTokens msgsLongUser : Int) ∧
      lastUserMsg msgsLongUser = some { role := "user", content := "aaaaaaaaaaaaaaaaaaaa" } ∧
      ({ role := "user", content := "aaaaaaaaaaaaaaaaaaaa" } : Msg)
        ∈ (enforce_context_budget tmLen msgsLongUser 8010).1) :=
  ⟨⟨by decide, (C3_amended tmLen 25000 msgsLongUser).1 (by decide)⟩,
   ⟨by decide, by decide,
    (C3_amended tmLen 8010 msgsLongUser).2 _ (by decide) (by decide)⟩⟩

theorem applyMuts_length (msgs : List Msg) (muts : List (Nat × Msg)) :
    (applyMuts msgs muts).length = msgs.length := by
  simp [applyMuts, List.enum_length]

theorem applyMuts_spec (msgs : List Msg) (muts : List (Nat × Msg))
    (hm : ∀ q ∈ muts, ∃ m, msgs[q.1]? = some m ∧ q.2 = truncToolMsg m) (i : Nat) :
    (applyMuts msgs muts)[i]? = msgs[i]? ∨
      ∃ m, msgs[i]? = some m ∧ m.role = "tool" ∧
        (applyMuts msgs muts)[i]? = some (truncToolMsg m) := by
  unfold applyMuts
  rw [List.getElem?_map, List.getElem?_enum]
  cases hmi : msgs[i]? with
  | none => left; simp
  | some m =>
    simp only [Option.map_some']
    cases hfind : muts.find? (fun q => q.1 == i) with
    | none => left; simp [hfind]
    | some q =>
      obtain ⟨m2, hm2, hq2⟩ := hm q (List.mem_of_find?_eq_some hfind)
      have hqi : q.1 = i := by
        have hpq := List.find?_some hfind
        simpa using hpq
      rw [hqi, hmi] at hm2
      have hm2e : m2 = m := by
        injection hm2 with h
        exact h.symm
      subst hm2e
      by_cases hrole : m2.role = "tool"
      · right
        exact ⟨m2, rfl, hrole, by simp [hfind, hq2]⟩
      · left
        have ht : truncToolMsg m2 = m2 := by
          unfold truncToolMsg
          rw [if_neg (show ¬((m2.role == "tool") = true) by simp [hrole])]
        simp [hfind, hq2, ht]

theorem buildPairsFuel_subset :
    ∀ (fuel : Nat) (l : List (Nat × Msg)) (pr : List (Nat × Msg)),
      pr ∈ buildPairsFuel fuel l → ∀ p ∈ pr, p ∈ l := by
  intro fuel
  induction fuel with
  | zero =>
    intro l pr h
    simp [buildPairsFuel] at h
  | succ f ih =>
    intro l pr h p hp
    cases l with
    | nil => simp [buildPairsFuel] at h
    | cons hd tl =>
      obtain ⟨i, m⟩ := hd
      unfold buildPairsFuel at h
      split at h
      · rcases List.mem_cons.mp h with h1 | h2
        · subst h1
          rcases List.mem_cons.mp hp with hp1 | hp2
          · subst hp1
            exact List.mem_cons_self _ _
          · exact List.mem_cons_of_mem _ (List.Sublist.mem hp2 (List.takeWhile_sublist _))
        · exact List.mem_cons_of_mem _ (List.mem_of_mem_drop (ih _ pr h2 p hp))
      · exact List.mem_cons_of_mem _ (ih _ pr h p hp)

theorem keptLoop_muts_spec (tm : TokenManager) (target : Int) (msgs : List Msg) :
    ∀ pairs : List (List (Nat × Msg)),
      (∀ pr ∈ pairs, ∀ p ∈ pr, msgs[p.1]? = some p.2) →
      ∀ (used : Int) (q : Nat × Msg), q ∈ (keptLoop tm target pairs used).2 →
        ∃ m, msgs[q.1]? = some m ∧ q.2 = truncToolMsg m := by
  intro pairs
  induction pairs with
  | nil =>
    intro _ used q hq
    simp [keptLoop] at hq
  | cons pr rest ih =>
    intro hp used q hq
    unfold keptLoop at hq
    dsimp only at hq
    split at hq <;>
      rcases List.mem_append.mp hq with hq1 | hq2 <;>
      first
        | · split at hq1
            · obtain ⟨p0, hp0, he⟩ := List.mem_map.mp hq1
              refine ⟨p0.2, ?_, ?_⟩
              · rw [← he]
                exact hp pr (List.mem_cons_self _ _) p0 hp0
              · rw [← he]
            · simp at hq1
        | exact ih (fun pr2 h2 => hp pr2 (List.mem_cons_of_mem _ h2)) _ q hq2

/-- C10: the claim says compaction never mutates the caller's message
objects.  Counterexample: an over-budget transcript with an oversized
61-line tool result - after the call the caller's tool message has been
truncated in place. -/
theorem C10_counterexample :
    (enforce_context_budget tmHundred msgsToolPair 8000).2[1]? ≠ msgsToolPair[1]? := by decide

/-- C10 amended: the compactor returns a newly built transcript, but it
does mutate the caller's list in one place: tool-role messages inside
the kept oversized call/response groups are truncated in place; every
other message object is unchanged (same length, and each position either
keeps its message or holds the in-place truncation of a tool-role
message). -/
theorem C10_amended (tm : TokenManager) (budget : Int) (msgs : List Msg) (i : Nat) :
    (enforce_context_budget tm msgs budget).2.length = msgs.length ∧
    ((enforce_context_budget tm msgs budget).2[i]? = msgs[i]? ∨
      ∃ m, msgs[i]? = some m ∧ m.role = "tool" ∧
        (enforce_context_budget tm msgs budget).2[i]? = some (truncToolMsg m)) := by
  unfold enforce_context_budget
  dsimp only
  split
  · exact ⟨rfl, Or.inl rfl⟩
  · refine ⟨applyMuts_length _ _, applyMuts_spec _ _ ?_ i⟩
    intro q hq
    refine keptLoop_muts_spec tm (budget - RESERVE_FOR_OUTPUT) msgs _ ?_ _ q hq
    intro pr hpr p hp
    have h1 := List.mem_of_mem_drop hpr
    have h2 := buildPairsFuel_subset _ _ pr h1 p hp
    have h3 : p ∈ msgs.enum := (List.mem_filter.mp h2).1
    obtain ⟨j, m⟩ := p
    exact List.mk_mem_enum_iff_getElem?.mp h3

end DevLLM
